import Mathlib

/-!
Shallow embedding of the Workout Planner API (`src/main.py`) together with
the parts of its persistence layer (`database.py`) and schema layer
(`schemas.py`) that the repository imports but does not ship; those two
are modelled from the specification where noted.

The embedding is executable: documents are association lists of JSON-like
values, MongoDB ObjectIds are natural numbers rendered as 24 lowercase hex
characters, and every FastAPI handler is a pure function from a database
state and request data to the next state and an HTTP response.  The
`try/except` structure of the handlers is translated faithfully: an
`HTTPException` raised inside the `try` block of a handler is itself an
`Exception`, so the blanket `except Exception` clause catches it and
re-raises it as a 500.
-/

/-- A BSON ObjectId, 12 bytes, modelled as a natural number.
States reachable by the real store keep it below `16 ^ 24`. -/
structure ObjectId where
  oid : Nat
deriving DecidableEq, Repr

/-- Lowercase hex digit character for a value below 16
(mirrors how `bson` renders ObjectIds). -/
def hexChar (d : Nat) : Char :=
  if d < 10 then Char.ofNat (48 + d) else Char.ofNat (87 + d)

/-- Numeric value of a hex digit character (0 on anything else). -/
def hexVal (c : Char) : Nat :=
  if 48 ≤ c.toNat ∧ c.toNat ≤ 57 then c.toNat - 48
  else if 97 ≤ c.toNat ∧ c.toNat ≤ 102 then c.toNat - 87
  else if 65 ≤ c.toNat ∧ c.toNat ≤ 70 then c.toNat - 55
  else 0

/-- Whether a character is a hex digit, as `bson.ObjectId` accepts. -/
def isHexChar (c : Char) : Bool :=
  decide ((48 ≤ c.toNat ∧ c.toNat ≤ 57) ∨ (97 ≤ c.toNat ∧ c.toNat ≤ 102) ∨
    (65 ≤ c.toNat ∧ c.toNat ≤ 70))

/-- `str(ObjectId)`: the 24-character lowercase hex string
(zero-padded on the left). -/
def ObjectId.render (o : ObjectId) : String :=
  let ds := (Nat.digits 16 o.oid).map hexChar
  String.mk (List.replicate (24 - ds.length) (Char.ofNat 48) ++ ds.reverse)

/-- `bson.ObjectId(s)` on a string: succeeds exactly on 24-character hex
strings, raising `InvalidId` (modelled as `none`) otherwise. -/
def ObjectId.parse (s : String) : Option ObjectId :=
  if s.length = 24 ∧ s.data.all isHexChar then
    some ⟨s.data.foldl (fun a c => 16 * a + hexVal c) 0⟩
  else
    none

/-- JSON-like / BSON-like values stored in documents. -/
inductive Value where
  | str (s : String)
  | int (n : Int)
  | bool (b : Bool)
  | oid (o : ObjectId)
  | time (t : Nat)
  | null
deriving DecidableEq, Repr

/-- A document / Python dict: an association list with (in reachable
states) unique keys, in insertion order. -/
abbrev Doc := List (String × Value)

/-- `doc.get(k)`: value of the first entry with key `k`. -/
def dGet (d : Doc) (k : String) : Option Value :=
  (d.find? (fun kv => kv.1 == k)).map (fun kv => kv.2)

/-- `doc[k] = v`: replace the value of the first entry with key `k`,
or append the new entry if the key is absent (Python dict assignment). -/
def dSet : Doc → String → Value → Doc
  | [], k, v => [(k, v)]
  | (k1, v1) :: rest, k, v =>
    if k1 == k then (k, v) :: rest else (k1, v1) :: dSet rest k v

/-- `del doc[k]`: remove the entries with key `k` (for dicts, at most one). -/
def dDel (d : Doc) (k : String) : Doc :=
  d.filter (fun kv => kv.1 != k)

/-- `serialize_doc` from `src/main.py`: falsy documents (absent or empty)
come back unchanged; otherwise if `_id` holds an ObjectId it is re-exposed
as the string field `id` and removed, and any other document is unchanged. -/
def serialize_doc : Option Doc → Option Doc
  | none => none
  | some doc =>
    if doc.isEmpty then some doc
    else
      match dGet doc "_id" with
      | some (Value.oid o) =>
        some (dDel (dSet doc "id" (Value.str o.render)) "_id")
      | _ => some doc

-- Basic dictionary lemmas ---------------------------------------------------

theorem dGet_dSet_self (d : Doc) (k : String) (v : Value) :
    dGet (dSet d k v) k = some v := by
  induction d with
  | nil => simp [dSet, dGet]
  | cons kv rest ih =>
    by_cases h : kv.1 == k
    · simp [dSet, dGet, h]
    · simpa [dSet, dGet, h, List.find?] using ih

theorem dGet_dSet_ne (d : Doc) (k k2 : String) (v : Value) (h : k ≠ k2) :
    dGet (dSet d k v) k2 = dGet d k2 := by
  have hb : (k == k2) = false := beq_eq_false_iff_ne.mpr h
  induction d with
  | nil => simp [dSet, dGet, List.find?, hb]
  | cons kv rest ih =>
    by_cases hk : kv.1 = k
    · have hk2 : (kv.1 == k2) = false := beq_eq_false_iff_ne.mpr (hk ▸ h)
      simp [dSet, dGet, hk, List.find?, hk2, hb]
    · have hkb : (kv.1 == k) = false := beq_eq_false_iff_ne.mpr hk
      by_cases h2 : kv.1 = k2
      · have hk2k : k2 ≠ k := fun e => h e.symm
        simp [dSet, dGet, hkb, List.find?, h2, hk2k]
      · have h2b : (kv.1 == k2) = false := beq_eq_false_iff_ne.mpr h2
        simpa [dSet, dGet, hkb, List.find?, h2b] using ih

theorem dGet_dDel_self (d : Doc) (k : String) :
    dGet (dDel d k) k = none := by
  induction d with
  | nil => simp [dDel, dGet]
  | cons kv rest ih =>
    by_cases h : kv.1 = k
    · have hb : (kv.1 != k) = false := by simp [h]
      simp only [dDel, List.filter_cons, hb] at ih ⊢
      exact ih
    · have hb : (kv.1 != k) = true := by simp [h]
      have hbe : (kv.1 == k) = false := beq_eq_false_iff_ne.mpr h
      simp only [dDel, dGet, List.filter_cons, hb, List.find?, hbe] at ih ⊢
      exact ih

theorem dGet_dDel_ne (d : Doc) (k k2 : String) (h : k ≠ k2) :
    dGet (dDel d k) k2 = dGet d k2 := by
  induction d with
  | nil => simp [dDel, dGet]
  | cons kv rest ih =>
    by_cases hk : kv.1 = k
    · have hb : (kv.1 != k) = false := by simp [hk]
      have h2 : (kv.1 == k2) = false := beq_eq_false_iff_ne.mpr (hk ▸ h)
      simpa [dDel, dGet, List.filter_cons, hb, List.find?, h2] using ih
    · have hb : (kv.1 != k) = true := by simp [hk]
      by_cases h2 : kv.1 = k2
      · have hk2k : k2 ≠ k := fun e => h e.symm
        simp [dDel, dGet, List.filter_cons, hb, List.find?, h2, hk2k]
      · have h2b : (kv.1 == k2) = false := beq_eq_false_iff_ne.mpr h2
        simpa [dDel, dGet, List.filter_cons, hb, List.find?, h2b] using ih

theorem dGet_some_ne_nil {d : Doc} {k : String} {v : Value}
    (h : dGet d k = some v) : d ≠ [] := by
  intro hnil
  subst hnil
  simp [dGet] at h

-- Database state and collection primitives ----------------------------------

/-- The single "workout" collection together with the ObjectId generator and
the database server clock read via `db.command({"serverStatus": 1})`. -/
structure DBState where
  workouts : List Doc
  nextOid : Nat
  clock : Nat
deriving DecidableEq, Repr

/-- `db["workout"].find_one({"_id": oid})`: first stored document whose
`_id` equals the given ObjectId, `None` when there is no match. -/
def findOne (st : DBState) (o : ObjectId) : Option Doc :=
  st.workouts.find? (fun d => dGet d "_id" == some (Value.oid o))

/-- MongoDB `$set` merge: each update entry overwrites or appends its key. -/
def applySet (upd : Doc) (d : Doc) : Doc :=
  upd.foldl (fun acc kv => dSet acc kv.1 kv.2) d

/-- `update_one({"_id": oid}, {"$set": upd})` over the stored list:
apply `$set` to the first match, and report `matched_count`. -/
def updateFirst (o : ObjectId) (upd : Doc) : List Doc → List Doc × Nat
  | [] => ([], 0)
  | d :: ds =>
    if dGet d "_id" == some (Value.oid o) then (applySet upd d :: ds, 1)
    else
      let r := updateFirst o upd ds
      (d :: r.1, r.2)

/-- `delete_one({"_id": oid})`: remove the first match, and report
`deleted_count`. -/
def deleteFirst (o : ObjectId) : List Doc → List Doc × Nat
  | [] => ([], 0)
  | d :: ds =>
    if dGet d "_id" == some (Value.oid o) then (ds, 1)
    else
      let r := deleteFirst o ds
      (d :: r.1, r.2)

-- Schema layer ---------------------------------------------------------------

/-- Modelled from the spec: `schemas.py` (imported by `src/main.py` as
`from schemas import Workout`) is not under `src/`.  Create contract per the
spec: `title` (text), `sets` (integer), `reps` (integer), `day` (text)
required; `notes` (text) and `completed` (boolean) optional. -/
structure Workout where
  title : String
  sets : Int
  reps : Int
  day : String
  notes : Option String
  completed : Option Bool
deriving DecidableEq, Repr

def optStr : Option String → Value
  | none => Value.null
  | some s => Value.str s

def optInt : Option Int → Value
  | none => Value.null
  | some n => Value.int n

def optBool : Option Bool → Value
  | none => Value.null
  | some b => Value.bool b

-- Persistence accessor -------------------------------------------------------

/-- Storage document for a validated workout: its fields plus the freshly
assigned `_id`. -/
def workoutDoc (o : ObjectId) (w : Workout) : Doc :=
  [("_id", Value.oid o), ("title", Value.str w.title),
   ("sets", Value.int w.sets), ("reps", Value.int w.reps),
   ("day", Value.str w.day), ("notes", optStr w.notes),
   ("completed", optBool w.completed)]

/-- Modelled from the spec: `database.py` (the persistence accessor) is not
under `src/`.  `create_document` serializes the validated item to a storage
document, inserts it with a freshly assigned identifier, and returns the new
identifier in its string form (`src/main.py` line 51 converts it back with
`ObjectId(inserted_id)`). -/
def create_document (st : DBState) (item : Workout) : DBState × String :=
  let o : ObjectId := ⟨st.nextOid⟩
  ({ st with
      workouts := st.workouts ++ [workoutDoc o item],
      nextOid := st.nextOid + 1 },
   o.render)

/-- A document matches a MongoDB equality filter when every filter entry
occurs in it with an equal value; the empty filter matches everything. -/
def docMatches (filt : Doc) (d : Doc) : Bool :=
  filt.all (fun kv => dGet d kv.1 == some kv.2)

/-- Modelled from the spec: `get_documents(collection, filter)` from
`database.py` returns all stored documents matching the filter. -/
def get_documents (st : DBState) (filt : Doc) : List Doc :=
  st.workouts.filter (docMatches filt)

-- Exceptions and responses ---------------------------------------------------

/-- The exceptions a handler body can raise: FastAPI `HTTPException`
(a subclass of `Exception`, hence caught by the blanket `except Exception`)
and `bson.errors.InvalidId` from `ObjectId(...)` on a malformed string. -/
inductive Exc where
  | http (status : Nat) (detail : String)
  | invalidId (s : String)
deriving DecidableEq, Repr

/-- `str(e)` of the caught exception, used as the detail of the 500. -/
def excStr : Exc → String
  | Exc.http s d => toString s ++ ": " ++ d
  | Exc.invalidId s => s ++ " is not a valid ObjectId"

/-- The HTTP responses the handlers produce.  `noBody` is the declared-204
success of DELETE (FastAPI suppresses the constructed body). -/
inductive Response where
  | list (body : List (Option Doc))
  | doc (body : Option Doc)
  | created (body : Option Doc)
  | noBody
  | err (status : Nat) (detail : String)
deriving DecidableEq, Repr

def Response.status : Response → Nat
  | Response.list _ => 200
  | Response.doc _ => 200
  | Response.created _ => 201
  | Response.noBody => 204
  | Response.err s _ => s

-- HTTP handlers (src/main.py) ------------------------------------------------

/-- `GET /api/workouts` (`src/main.py` lines 37-44): a missing or falsy
`day` (Python truthiness: `None` or the empty string) gives the empty
filter, otherwise the exact-equality filter on `day`; the matching
documents are returned serialized. -/
def list_workouts (st : DBState) (day : Option String) : Response :=
  let filter_q : Doc :=
    match day with
    | some s => if s.isEmpty then [] else [("day", Value.str s)]
    | none => []
  Response.list ((get_documents st filter_q).map (fun d => serialize_doc (some d)))

/-- `POST /api/workouts` handler body (`src/main.py` lines 46-54), reached
only on a validated `Workout`: insert, re-fetch by `ObjectId(inserted_id)`,
serialize, status 201; an exception inside the `try` becomes a 500. -/
def create_workout (st : DBState) (item : Workout) : DBState × Response :=
  let r := create_document st item
  match ObjectId.parse r.2 with
  | none => (r.1, Response.err 500 (excStr (Exc.invalidId r.2)))
  | some o => (r.1, Response.created (serialize_doc (findOne r.1 o)))

/-- The PATCH body (`src/main.py` lines 56-62): every field optional.  The
outer `Option` records whether the field was sent at all, the inner one
whether it was sent as null, so that `model_dump(exclude_unset=True)` can
distinguish omitted fields from explicit nulls. -/
structure UpdateWorkout where
  title : Option (Option String)
  sets : Option (Option Int)
  reps : Option (Option Int)
  day : Option (Option String)
  notes : Option (Option String)
  completed : Option (Option Bool)
deriving DecidableEq, Repr

/-- `payload.model_dump(exclude_unset=True)`: only the fields explicitly
present in the request body, in declaration order, nulls included. -/
def model_dump_exclude_unset (p : UpdateWorkout) : Doc :=
  (match p.title with | none => [] | some v => [("title", optStr v)]) ++
  (match p.sets with | none => [] | some v => [("sets", optInt v)]) ++
  (match p.reps with | none => [] | some v => [("reps", optInt v)]) ++
  (match p.day with | none => [] | some v => [("day", optStr v)]) ++
  (match p.notes with | none => [] | some v => [("notes", optStr v)]) ++
  (match p.completed with | none => [] | some v => [("completed", optBool v)])

/-- `PATCH /api/workouts/{workout_id}` (`src/main.py` lines 64-77).  The
`except Exception` clause catches the handler's own
`HTTPException(400/404)` raises too and re-raises them as 500. -/
def update_workout (st : DBState) (workout_id : String)
    (payload : UpdateWorkout) : DBState × Response :=
  let update_data := model_dump_exclude_unset payload
  if update_data.isEmpty then
    (st, Response.err 500 (excStr (Exc.http 400 "No fields to update")))
  else
    let update_data := dSet update_data "updated_at" (Value.time st.clock)
    match ObjectId.parse workout_id with
    | none => (st, Response.err 500 (excStr (Exc.invalidId workout_id)))
    | some o =>
      let r := updateFirst o update_data st.workouts
      let st2 := { st with workouts := r.1 }
      if r.2 = 0 then
        (st2, Response.err 500 (excStr (Exc.http 404 "Workout not found")))
      else
        (st2, Response.doc (serialize_doc (findOne st2 o)))

/-- `DELETE /api/workouts/{workout_id}` (`src/main.py` lines 79-87); the
404 raise is likewise caught by `except Exception` and mapped to 500. -/
def delete_workout (st : DBState) (workout_id : String) :
    DBState × Response :=
  match ObjectId.parse workout_id with
  | none => (st, Response.err 500 (excStr (Exc.invalidId workout_id)))
  | some o =>
    let r := deleteFirst o st.workouts
    let st2 := { st with workouts := r.1 }
    if r.2 = 0 then
      (st2, Response.err 500 (excStr (Exc.http 404 "Workout not found")))
    else
      (st2, Response.noBody)

-- Request validation for POST ------------------------------------------------

/-- Modelled from the spec: FastAPI validates the JSON body against the
`schemas.Workout` contract before the handler runs; a missing or mistyped
required field fails validation. -/
def parseWorkout (body : Doc) : Option Workout :=
  match dGet body "title", dGet body "sets",
        dGet body "reps", dGet body "day" with
  | some (Value.str t), some (Value.int s),
    some (Value.int r), some (Value.str d) =>
    some { title := t, sets := s, reps := r, day := d,
           notes := match dGet body "notes" with
             | some (Value.str n) => some n
             | _ => none,
           completed := match dGet body "completed" with
             | some (Value.bool b) => some b
             | _ => none }
  | _, _, _, _ => none

/-- The POST route as dispatched: validation first, the handler body only
on success — a validation failure is rejected before any persistence call. -/
def post_workouts (st : DBState) (body : Doc) : DBState × Response :=
  match parseWorkout body with
  | none => (st, Response.err 422 "validation error")
  | some item => create_workout st item

-- Claim theorems -------------------------------------------------------------

/-- C10: `serialize_doc` is idempotent — serializing an already serialized
document changes nothing; in particular falsy documents (`None` or the
empty dict) and documents whose `_id` is not an ObjectId come back
unchanged. -/
theorem serialize_doc_idempotent (d : Option Doc) :
    serialize_doc (serialize_doc d) = serialize_doc d := by
  match d with
  | none => rfl
  | some doc =>
    cases he : doc.isEmpty with
    | true => simp [serialize_doc, he]
    | false =>
      rcases hid : dGet doc "_id" with _ | v
      · simp [serialize_doc, he, hid]
      · match v with
        | Value.str s => simp [serialize_doc, he, hid]
        | Value.int n => simp [serialize_doc, he, hid]
        | Value.bool b => simp [serialize_doc, he, hid]
        | Value.time t => simp [serialize_doc, he, hid]
        | Value.null => simp [serialize_doc, he, hid]
        | Value.oid o =>
          have h1 : dGet (dDel (dSet doc "id" (Value.str o.render)) "_id") "id"
              = some (Value.str o.render) := by
            rw [dGet_dDel_ne _ "_id" "id" (by decide)]
            exact dGet_dSet_self doc "id" _
          have h2 : dGet (dDel (dSet doc "id" (Value.str o.render)) "_id") "_id"
              = none := dGet_dDel_self _ "_id"
          have hne : (dDel (dSet doc "id" (Value.str o.render)) "_id").isEmpty
              = false := by
            cases hx : dDel (dSet doc "id" (Value.str o.render)) "_id" with
            | nil => rw [hx] at h1; simp [dGet] at h1
            | cons a l => simp
          simp [serialize_doc, he, hid, h2, hne]

/-- C9: listing with the `day` query parameter present but equal to the
empty string behaves exactly like listing with no `day` parameter (the
empty string is falsy, so the filter collapses to the match-all filter). -/
theorem list_empty_day_equals_no_day (st : DBState) :
    list_workouts st (some "") = list_workouts st none := rfl

/-- C6: listing with `day="Monday"` returns exactly the stored documents
whose `day` field equals the string `"Monday"` — an exact match, no
case-insensitive or partial matching — serialized. -/
theorem list_day_monday_exact_filter (st : DBState) :
    list_workouts st (some "Monday") =
      Response.list
        ((st.workouts.filter
            (fun d => decide (dGet d "day" = some (Value.str "Monday")))).map
          (fun d => serialize_doc (some d))) := by
  have hstep : list_workouts st (some "Monday") =
      Response.list
        ((st.workouts.filter (docMatches [("day", Value.str "Monday")])).map
          (fun d => serialize_doc (some d))) := rfl
  rw [hstep]
  have hpred : ∀ d : Doc, docMatches [("day", Value.str "Monday")] d
      = decide (dGet d "day" = some (Value.str "Monday")) := by
    intro d
    simp [docMatches, beq_eq_decide]
  congr 1
  congr 1
  exact List.filter_congr (fun d _ => hpred d)

/-- C8: a PATCH or DELETE whose path identifier is not a well-formed
ObjectId string fails with a generic error mapped to status 500
(`bson.InvalidId` caught by the blanket `except Exception`) and leaves the
database state unchanged. -/
theorem malformed_id_maps_500 (st : DBState) (wid : String)
    (payload : UpdateWorkout) (h : ObjectId.parse wid = none) :
    ((update_workout st wid payload).2.status = 500 ∧
      (update_workout st wid payload).1 = st) ∧
    ((delete_workout st wid).2.status = 500 ∧
      (delete_workout st wid).1 = st) := by
  refine ⟨?_, ?_⟩
  · rw [update_workout]
    split
    · exact ⟨rfl, rfl⟩
    · rw [h]
      exact ⟨rfl, rfl⟩
  · rw [delete_workout, h]
    exact ⟨rfl, rfl⟩

theorem malformed_id_maps_500_witness :
    ObjectId.parse "not-a-valid-object-id" = none ∧
    (((update_workout ⟨[], 0, 0⟩ "not-a-valid-object-id"
        ⟨none, none, none, none, none, some (some true)⟩).2.status = 500 ∧
      (update_workout ⟨[], 0, 0⟩ "not-a-valid-object-id"
        ⟨none, none, none, none, none, some (some true)⟩).1 = ⟨[], 0, 0⟩) ∧
    ((delete_workout ⟨[], 0, 0⟩ "not-a-valid-object-id").2.status = 500 ∧
      (delete_workout ⟨[], 0, 0⟩ "not-a-valid-object-id").1 = ⟨[], 0, 0⟩)) :=
  ⟨by decide,
   malformed_id_maps_500 ⟨[], 0, 0⟩ "not-a-valid-object-id"
     ⟨none, none, none, none, none, some (some true)⟩ (by decide)⟩

/-- C1 (code evaluation at the failing input): a PATCH on an empty store
with a well-formed identifier and a non-empty body returns status 500 with
detail "404: Workout not found" — the handler raises `HTTPException(404)`,
but its own `except Exception` clause catches it and re-raises it as a 500,
so the specified 404 never reaches the client. -/
theorem update_missing_record_evaluates_500 :
    (update_workout ⟨[], 0, 0⟩ "0123456789abcdef01234567"
        ⟨none, none, none, none, none, some (some true)⟩).2
      = Response.err 500 "404: Workout not found" := by decide

/-- C3 (code evaluation at the failing input): a PATCH whose body sets no
fields returns status 500 with detail "400: No fields to update" — the
handler raises `HTTPException(400)`, but the `except Exception` clause
catches it and re-raises it as a 500, so the specified 400 never reaches
the client. -/
theorem update_empty_body_evaluates_500 :
    (update_workout ⟨[], 0, 0⟩ "0123456789abcdef01234567"
        ⟨none, none, none, none, none, none⟩).2
      = Response.err 500 "400: No fields to update" := by decide

/-- C2 (code evaluation): deleting an existing record does return the
declared 204 and removes it, but deleting it again returns status 500 with
detail "404: Workout not found" rather than the specified 404, because the
handler catches its own `HTTPException(404)` in `except Exception`. -/
theorem delete_status_evaluation :
    (delete_workout
        ⟨[[("_id", Value.oid ⟨5⟩), ("title", Value.str "Bench"),
           ("sets", Value.int 3), ("reps", Value.int 10),
           ("day", Value.str "Monday"), ("notes", Value.null),
           ("completed", Value.null)]], 6, 0⟩
        "000000000000000000000005").2 = Response.noBody ∧
    (delete_workout
        ⟨[[("_id", Value.oid ⟨5⟩), ("title", Value.str "Bench"),
           ("sets", Value.int 3), ("reps", Value.int 10),
           ("day", Value.str "Monday"), ("notes", Value.null),
           ("completed", Value.null)]], 6, 0⟩
        "000000000000000000000005").1.workouts = [] ∧
    (delete_workout ⟨[], 6, 0⟩ "000000000000000000000005").2
      = Response.err 500 "404: Workout not found" := by decide

/-- C7: a POST body that omits the required `title` field fails schema
validation, is rejected before the handler (and hence before any
persistence call) runs, and leaves the database state unchanged. -/
theorem post_missing_title_rejected (st : DBState) (body : Doc)
    (h : dGet body "title" = none) :
    parseWorkout body = none ∧
    post_workouts st body = (st, Response.err 422 "validation error") := by
  have hp : parseWorkout body = none := by
    unfold parseWorkout
    rw [h]
  refine ⟨hp, ?_⟩
  rw [post_workouts, hp]

theorem post_missing_title_rejected_witness :
    dGet [("sets", Value.int 3)] "title" = none ∧
    (parseWorkout [("sets", Value.int 3)] = none ∧
     post_workouts ⟨[], 0, 0⟩ [("sets", Value.int 3)]
       = (⟨[], 0, 0⟩, Response.err 422 "validation error")) :=
  ⟨by decide,
   post_missing_title_rejected ⟨[], 0, 0⟩ [("sets", Value.int 3)] (by decide)⟩

/-- If a document with the given `_id` is stored, `update_one` matches it
(count 1) and afterwards the first document with that `_id` is the old one
with the `$set` document merged — provided the update leaves `_id`
untouched. -/
theorem updateFirst_found (o : ObjectId) (u : Doc)
    (hpres : ∀ d : Doc, dGet (applySet u d) "_id" = dGet d "_id")
    (l : List Doc) (d0 : Doc)
    (hfind : l.find? (fun d => dGet d "_id" == some (Value.oid o)) = some d0) :
    (updateFirst o u l).2 = 1 ∧
    (updateFirst o u l).1.find? (fun d => dGet d "_id" == some (Value.oid o))
      = some (applySet u d0) := by
  induction l with
  | nil => simp at hfind
  | cons d ds ih =>
    by_cases hp : (dGet d "_id" == some (Value.oid o)) = true
    · have hu : updateFirst o u (d :: ds) = (applySet u d :: ds, 1) := by
        simp [updateFirst, hp]
      rw [@List.find?_cons_of_pos _ (fun d => dGet d "_id" == some (Value.oid o))
        d ds hp] at hfind
      have hd : d = d0 := by injection hfind
      subst hd
      have hp2 : (dGet (applySet u d) "_id" == some (Value.oid o)) = true := by
        rw [hpres]
        exact hp
      rw [hu]
      exact ⟨rfl, @List.find?_cons_of_pos _
        (fun d => dGet d "_id" == some (Value.oid o)) _ _ hp2⟩
    · have hu : updateFirst o u (d :: ds)
          = (d :: (updateFirst o u ds).1, (updateFirst o u ds).2) := by
        simp [updateFirst, hp]
      rw [@List.find?_cons_of_neg _ (fun d => dGet d "_id" == some (Value.oid o))
        d ds hp] at hfind
      obtain ⟨h1, h2⟩ := ih hfind
      rw [hu]
      refine ⟨h1, ?_⟩
      rw [@List.find?_cons_of_neg _ (fun d => dGet d "_id" == some (Value.oid o))
        d _ hp]
      exact h2

/-- C5: a successful PATCH whose body sets only `completed` (to true)
changes only `completed` and `updated_at` of the stored record: afterwards
the record keeps the prior value of every other field, and the response is
the serialized updated record with status 200. -/
theorem update_completed_frame (st : DBState) (wid : String)
    (o : ObjectId) (d0 : Doc)
    (hw : ObjectId.parse wid = some o)
    (hf : findOne st o = some d0) :
    ∃ st2 d1,
      update_workout st wid ⟨none, none, none, none, none, some (some true)⟩
        = (st2, Response.doc (serialize_doc (some d1))) ∧
      findOne st2 o = some d1 ∧
      dGet d1 "completed" = some (Value.bool true) ∧
      dGet d1 "updated_at" = some (Value.time st.clock) ∧
      (∀ k : String, k ≠ "completed" → k ≠ "updated_at" →
        dGet d1 k = dGet d0 k) := by
  have happ : ∀ d : Doc,
      applySet [("completed", Value.bool true),
        ("updated_at", Value.time st.clock)] d
      = dSet (dSet d "completed" (Value.bool true)) "updated_at"
          (Value.time st.clock) := fun d => rfl
  have hpres : ∀ d : Doc,
      dGet (applySet [("completed", Value.bool true),
        ("updated_at", Value.time st.clock)] d) "_id" = dGet d "_id" := by
    intro d
    rw [happ, dGet_dSet_ne _ _ _ _ (by decide), dGet_dSet_ne _ _ _ _ (by decide)]
  obtain ⟨hm, hfind2⟩ := updateFirst_found o
    [("completed", Value.bool true), ("updated_at", Value.time st.clock)]
    hpres st.workouts d0 hf
  have hred : update_workout st wid ⟨none, none, none, none, none, some (some true)⟩
      = (match ObjectId.parse wid with
         | none => (st, Response.err 500 (excStr (Exc.invalidId wid)))
         | some o2 =>
           let r := updateFirst o2 [("completed", Value.bool true),
             ("updated_at", Value.time st.clock)] st.workouts
           let st2 : DBState := { st with workouts := r.1 }
           if r.2 = 0 then
             (st2, Response.err 500 (excStr (Exc.http 404 "Workout not found")))
           else
             (st2, Response.doc (serialize_doc (findOne st2 o2)))) := rfl
  refine ⟨{ st with workouts :=
      (updateFirst o [("completed", Value.bool true),
        ("updated_at", Value.time st.clock)] st.workouts).1 },
    applySet [("completed", Value.bool true),
      ("updated_at", Value.time st.clock)] d0, ?_, ?_, ?_, ?_, ?_⟩
  · rw [hred, hw]
    simp only [hm, findOne, hfind2]
    simp
  · simp only [findOne, hfind2]
  · rw [happ]
    rw [dGet_dSet_ne _ _ _ _ (by decide)]
    exact dGet_dSet_self _ _ _
  · rw [happ]
    exact dGet_dSet_self _ _ _
  · intro k hk1 hk2
    rw [happ]
    rw [dGet_dSet_ne _ _ _ _ (fun e => hk2 e.symm),
        dGet_dSet_ne _ _ _ _ (fun e => hk1 e.symm)]

theorem update_completed_frame_witness :
    (ObjectId.parse "000000000000000000000000" = some ⟨0⟩ ∧
     findOne ⟨[[("_id", Value.oid ⟨0⟩), ("title", Value.str "Run"),
       ("sets", Value.int 3), ("reps", Value.int 10),
       ("day", Value.str "Monday"), ("notes", Value.null),
       ("completed", Value.null)]], 1, 42⟩ ⟨0⟩
       = some [("_id", Value.oid ⟨0⟩), ("title", Value.str "Run"),
         ("sets", Value.int 3), ("reps", Value.int 10),
         ("day", Value.str "Monday"), ("notes", Value.null),
         ("completed", Value.null)]) ∧
    (∃ st2 d1,
      update_workout ⟨[[("_id", Value.oid ⟨0⟩), ("title", Value.str "Run"),
          ("sets", Value.int 3), ("reps", Value.int 10),
          ("day", Value.str "Monday"), ("notes", Value.null),
          ("completed", Value.null)]], 1, 42⟩ "000000000000000000000000"
          ⟨none, none, none, none, none, some (some true)⟩
        = (st2, Response.doc (serialize_doc (some d1))) ∧
      findOne st2 ⟨0⟩ = some d1 ∧
      dGet d1 "completed" = some (Value.bool true) ∧
      dGet d1 "updated_at" = some (Value.time 42) ∧
      (∀ k : String, k ≠ "completed" → k ≠ "updated_at" →
        dGet d1 k = dGet [("_id", Value.oid ⟨0⟩), ("title", Value.str "Run"),
          ("sets", Value.int 3), ("reps", Value.int 10),
          ("day", Value.str "Monday"), ("notes", Value.null),
          ("completed", Value.null)] k)) :=
  ⟨⟨by decide, by decide⟩,
   update_completed_frame
     ⟨[[("_id", Value.oid ⟨0⟩), ("title", Value.str "Run"),
       ("sets", Value.int 3), ("reps", Value.int 10),
       ("day", Value.str "Monday"), ("notes", Value.null),
       ("completed", Value.null)]], 1, 42⟩
     "000000000000000000000000" ⟨0⟩ _ (by decide) (by decide)⟩

-- Hex round trip for ObjectId strings ---------------------------------------

theorem hexVal_hexChar : ∀ d : Nat, d < 16 → hexVal (hexChar d) = d := by
  decide

theorem isHexChar_hexChar : ∀ d : Nat, d < 16 → isHexChar (hexChar d) = true := by
  decide

theorem foldl_hex_replicate (k : Nat) :
    (List.replicate k (Char.ofNat 48)).foldl
      (fun a c => 16 * a + hexVal c) 0 = 0 := by
  induction k with
  | zero => rfl
  | succ n ih =>
    have h0 : 16 * 0 + hexVal (Char.ofNat 48) = 0 := by decide
    simpa [List.replicate_succ, h0] using ih

theorem foldr_hex_digits (ds : List Nat) (h : ∀ d ∈ ds, d < 16) :
    ds.foldr (fun d acc => 16 * acc + hexVal (hexChar d)) 0
      = Nat.ofDigits 16 ds := by
  induction ds with
  | nil => simp
  | cons d rest ih =>
    have hd : d < 16 := h d (by simp)
    have hrest : ∀ x ∈ rest, x < 16 := fun x hx => h x (by simp [hx])
    rw [List.foldr_cons, ih hrest, Nat.ofDigits_cons, hexVal_hexChar d hd]
    omega

theorem digits_len_le_24 {n : Nat} (h : n < 16 ^ 24) :
    (Nat.digits 16 n).length ≤ 24 := by
  rcases Nat.eq_zero_or_pos n with h0 | h0
  · simp [h0]
  · have hne : n ≠ 0 := by omega
    rw [Nat.digits_len 16 n (by norm_num) hne]
    have := Nat.log_lt_of_lt_pow hne h
    omega

theorem render_data (o : ObjectId) :
    (ObjectId.render o).data
      = List.replicate (24 - ((Nat.digits 16 o.oid).map hexChar).length)
          (Char.ofNat 48)
        ++ ((Nat.digits 16 o.oid).map hexChar).reverse := rfl

theorem render_length (o : ObjectId) (h : o.oid < 16 ^ 24) :
    (ObjectId.render o).length = 24 := by
  have hd := digits_len_le_24 h
  show (ObjectId.render o).data.length = 24
  rw [render_data]
  simp only [List.length_append, List.length_replicate, List.length_reverse,
    List.length_map]
  omega

theorem parse_render (o : ObjectId) (h : o.oid < 16 ^ 24) :
    ObjectId.parse (ObjectId.render o) = some o := by
  have hdl : ∀ d ∈ Nat.digits 16 o.oid, d < 16 :=
    fun d hd => Nat.digits_lt_base (by norm_num) hd
  have hall : (ObjectId.render o).data.all isHexChar = true := by
    rw [render_data, List.all_append]
    have h1 : (List.replicate (24 - ((Nat.digits 16 o.oid).map hexChar).length)
        (Char.ofNat 48)).all isHexChar = true := by
      rw [List.all_eq_true]
      intro c hc
      rw [List.eq_of_mem_replicate hc]
      decide
    have h2 : ((Nat.digits 16 o.oid).map hexChar).reverse.all isHexChar
        = true := by
      rw [List.all_eq_true]
      intro c hc
      rw [List.mem_reverse] at hc
      obtain ⟨d, hd, hcd⟩ := List.mem_map.mp hc
      rw [← hcd]
      exact isHexChar_hexChar d (hdl d hd)
    rw [h1, h2]
    rfl
  have hfold : (ObjectId.render o).data.foldl
      (fun a c => 16 * a + hexVal c) 0 = o.oid := by
    rw [render_data, List.foldl_append, foldl_hex_replicate,
      List.foldl_reverse, List.foldr_map, foldr_hex_digits _ hdl]
    exact Nat.ofDigits_digits 16 o.oid
  unfold ObjectId.parse
  rw [if_pos (And.intro (render_length o h) hall), hfold]

/-- C4: a successful POST supplying all required fields returns 201 and an
object whose `id` is a non-empty string and whose `title`, `sets`, `reps`
and `day` equal the input.  The hypotheses — the ObjectId generator stays
within the 12-byte range, and the freshly assigned identifier is not
already stored — hold in every state reachable through the store, which
assigns each `_id` uniquely. -/
theorem create_workout_created_echo (st : DBState) (item : Workout)
    (hb : st.nextOid < 16 ^ 24)
    (hfresh : ∀ d ∈ st.workouts,
      dGet d "_id" ≠ some (Value.oid ⟨st.nextOid⟩)) :
    ∃ body : Doc,
      (create_workout st item).2 = Response.created (some body) ∧
      Response.status (create_workout st item).2 = 201 ∧
      dGet body "id"
        = some (Value.str (ObjectId.render ⟨st.nextOid⟩)) ∧
      ObjectId.render ⟨st.nextOid⟩ ≠ "" ∧
      dGet body "title" = some (Value.str item.title) ∧
      dGet body "sets" = some (Value.int item.sets) ∧
      dGet body "reps" = some (Value.int item.reps) ∧
      dGet body "day" = some (Value.str item.day) := by
  have hnone : st.workouts.find?
      (fun d => dGet d "_id" == some (Value.oid ⟨st.nextOid⟩)) = none := by
    rw [List.find?_eq_none]
    intro d hd hcontra
    exact hfresh d hd (by simpa [beq_eq_decide] using hcontra)
  have hpredwd : (dGet (workoutDoc ⟨st.nextOid⟩ item) "_id"
      == some (Value.oid ⟨st.nextOid⟩)) = true := by
    have hg : dGet (workoutDoc ⟨st.nextOid⟩ item) "_id"
        = some (Value.oid ⟨st.nextOid⟩) := rfl
    rw [hg]
    exact beq_self_eq_true _
  have hfo : findOne ⟨st.workouts ++ [workoutDoc ⟨st.nextOid⟩ item],
      st.nextOid + 1, st.clock⟩ ⟨st.nextOid⟩
      = some (workoutDoc ⟨st.nextOid⟩ item) := by
    unfold findOne
    show (st.workouts ++ [workoutDoc ⟨st.nextOid⟩ item]).find? _ = _
    rw [List.find?_append, hnone]
    exact @List.find?_cons_of_pos _
      (fun d => dGet d "_id" == some (Value.oid ⟨st.nextOid⟩))
      (workoutDoc ⟨st.nextOid⟩ item) [] hpredwd
  have hredc : create_workout st item
      = (match ObjectId.parse (ObjectId.render ⟨st.nextOid⟩) with
         | none =>
           (⟨st.workouts ++ [workoutDoc ⟨st.nextOid⟩ item],
             st.nextOid + 1, st.clock⟩,
            Response.err 500
              (excStr (Exc.invalidId (ObjectId.render ⟨st.nextOid⟩))))
         | some o2 =>
           (⟨st.workouts ++ [workoutDoc ⟨st.nextOid⟩ item],
             st.nextOid + 1, st.clock⟩,
            Response.created (serialize_doc (findOne
              ⟨st.workouts ++ [workoutDoc ⟨st.nextOid⟩ item],
               st.nextOid + 1, st.clock⟩ o2)))) := rfl
  have hser : serialize_doc (some (workoutDoc ⟨st.nextOid⟩ item))
      = some (dDel (dSet (workoutDoc ⟨st.nextOid⟩ item) "id"
          (Value.str (ObjectId.render ⟨st.nextOid⟩))) "_id") := rfl
  have hresp : (create_workout st item).2
      = Response.created (some (dDel (dSet (workoutDoc ⟨st.nextOid⟩ item) "id"
          (Value.str (ObjectId.render ⟨st.nextOid⟩))) "_id")) := by
    rw [hredc, parse_render ⟨st.nextOid⟩ hb]
    simp only [hfo, hser]
  have hne0 : ObjectId.render ⟨st.nextOid⟩ ≠ "" := by
    intro he
    have hl := render_length ⟨st.nextOid⟩ hb
    rw [he] at hl
    exact absurd hl (by decide)
  refine ⟨dDel (dSet (workoutDoc ⟨st.nextOid⟩ item) "id"
      (Value.str (ObjectId.render ⟨st.nextOid⟩))) "_id",
    hresp, by rw [hresp]; rfl, ?_, hne0, ?_, ?_, ?_, ?_⟩
  · rw [dGet_dDel_ne _ _ _ (by decide)]
    exact dGet_dSet_self _ _ _
  · rw [dGet_dDel_ne _ _ _ (by decide), dGet_dSet_ne _ _ _ _ (by decide)]
    rfl
  · rw [dGet_dDel_ne _ _ _ (by decide), dGet_dSet_ne _ _ _ _ (by decide)]
    rfl
  · rw [dGet_dDel_ne _ _ _ (by decide), dGet_dSet_ne _ _ _ _ (by decide)]
    rfl
  · rw [dGet_dDel_ne _ _ _ (by decide), dGet_dSet_ne _ _ _ _ (by decide)]
    rfl

theorem create_workout_created_echo_witness :
    ((0 : Nat) < 16 ^ 24 ∧
     ∀ d ∈ ([] : List Doc), dGet d "_id" ≠ some (Value.oid ⟨0⟩)) ∧
    (∃ body : Doc,
      (create_workout ⟨[], 0, 0⟩ ⟨"Run", 3, 10, "Monday", none, none⟩).2
        = Response.created (some body) ∧
      Response.status
        (create_workout ⟨[], 0, 0⟩ ⟨"Run", 3, 10, "Monday", none, none⟩).2
        = 201 ∧
      dGet body "id" = some (Value.str (ObjectId.render ⟨0⟩)) ∧
      ObjectId.render ⟨0⟩ ≠ "" ∧
      dGet body "title" = some (Value.str "Run") ∧
      dGet body "sets" = some (Value.int 3) ∧
      dGet body "reps" = some (Value.int 10) ∧
      dGet body "day" = some (Value.str "Monday")) :=
  ⟨⟨by norm_num, by simp⟩,
   create_workout_created_echo ⟨[], 0, 0⟩ ⟨"Run", 3, 10, "Monday", none, none⟩
     (by norm_num) (by simp)⟩
